import Mathlib

/-!
Verification of the Go rules engine and bot tactics in `src/go/go.h`.

The board engine is embedded shallowly: `_Group` objects live in an explicit
`Heap` addressed by `GroupId` (modelling C++ `shared_ptr<_Group>` identity),
a `Board` holds a grid of optional `GroupId`s and the list of active group
ids (modelling `std::set<Group>` membership), and fallible C++ code
(`_Group::operator+=` throws `std::invalid_argument`) is modelled with
`Except String`.
-/

/-- `enum Color { BLACK, WHITE }`. -/
inductive Color where
  | BLACK
  | WHITE
deriving DecidableEq, Repr

/-- `Color operator~(const Color& c) { return c == BLACK ? WHITE : BLACK; }` -/
def oppColor (c : Color) : Color :=
  match c with
  | Color.BLACK => Color.WHITE
  | Color.WHITE => Color.BLACK

/-- `struct Pos { int row, col; }`. -/
structure Pos where
  row : Int
  col : Int
deriving DecidableEq, Repr

instance : Inhabited Pos := ⟨⟨0, 0⟩⟩

/-- `std::strong_ordering operator<=>(const Pos&)` compares `(row, col)`
lexicographically; `std::set<Pos>` iterates in this order. -/
def posKey (p : Pos) : Lex (Int × Int) := toLex (p.row, p.col)

theorem posKey_injective : Function.Injective posKey := by
  intro p q h
  have h' : (p.row, p.col) = (q.row, q.col) := congrArg (fun x => ofLex x) h
  cases p; cases q
  simp only [Prod.mk.injEq] at h'
  simp [h'.1, h'.2]

instance : LinearOrder Pos := LinearOrder.lift' posKey posKey_injective

/-- `Pos::neighbors()`: left, right, up, down, in the source's order. -/
def neighbors (p : Pos) : List Pos :=
  [⟨p.row, p.col - 1⟩, ⟨p.row, p.col + 1⟩, ⟨p.row - 1, p.col⟩, ⟨p.row + 1, p.col⟩]

/-- `Pos::corners()`: the four diagonal neighbours, in the source's order. -/
def corners (p : Pos) : List Pos :=
  [⟨p.row - 1, p.col - 1⟩, ⟨p.row - 1, p.col + 1⟩,
   ⟨p.row + 1, p.col - 1⟩, ⟨p.row + 1, p.col + 1⟩]

/-- `constexpr int size = 9;` -/
def boardSize : Int := 9

/-- `Board::is_pos_valid`. -/
def isPosValid (p : Pos) : Bool :=
  decide (0 ≤ p.row) && decide (p.row < boardSize) &&
  decide (0 ≤ p.col) && decide (p.col < boardSize)

/-- `struct _Group { Color color; Positions stones, liberties; }`.
A `Positions` (a `std::set<Pos>`) is a `Finset Pos`. -/
structure GroupData where
  color : Color
  stones : Finset Pos
  liberties : Finset Pos
deriving DecidableEq

instance : Inhabited GroupData := ⟨⟨Color.BLACK, ∅, ∅⟩⟩

/-- `_Group::numLiberties() == 0`, i.e. `_Group::isDead()`. -/
def groupIsDead (g : GroupData) : Bool := g.liberties.card = 0

/-- Identity of a heap-allocated `_Group` (a `std::shared_ptr<_Group>`). -/
abbrev GroupId := Nat

/-- The allocation store for `_Group` objects.  `shared_ptr` aliasing is
sharing of a `GroupId`; in-place mutation of a group is an update of the
store at its id, visible through every reference to that id. -/
structure Heap where
  nextId : GroupId
  data : GroupId → Option GroupData

/-- Dereference a group pointer.  C++ only dereferences live pointers, so the
default is never observed on inputs built by the operations. -/
def lookupG (h : Heap) (i : GroupId) : GroupData :=
  (h.data i).getD default

/-- Overwrite the group object at an id (in-place mutation of a `_Group`). -/
def updateG (h : Heap) (i : GroupId) (g : GroupData) : Heap :=
  ⟨h.nextId, fun j => if j = i then some g else h.data j⟩

/-- `std::make_shared<_Group>(...)`: allocate a fresh group object. -/
def allocG (h : Heap) (g : GroupData) : Heap × GroupId :=
  (⟨h.nextId + 1, fun j => if j = h.nextId then some g else h.data j⟩, h.nextId)

def emptyHeap : Heap := ⟨0, fun _ => none⟩

/-- `struct Board`: the grid of group references and the active-group set.
The grid is total on `Pos`; only valid positions are ever consulted.
`std::set<Group>` (ordered by pointer value) becomes a duplicate-free list of
ids in insertion order, a deterministic refinement of the pointer order. -/
structure Board where
  grid : Pos → Option GroupId
  activeGroups : List GroupId

def emptyBoard : Board := ⟨fun _ => none, []⟩

/-- The valid neighbours of `pos` (the `is_pos_valid` filter of the
classification loop in `Board::place_stone`). -/
def validNeighbors (pos : Pos) : List Pos :=
  (neighbors pos).filter (fun p => isPosValid p)

/-- The set `adj_friends` of `Board::place_stone`: ids of distinct
neighbouring groups of the placed colour. -/
def adjFriendIds (h : Heap) (b : Board) (color : Color) (pos : Pos) : List GroupId :=
  ((validNeighbors pos).filterMap (fun p =>
    match b.grid p with
    | some id => if (lookupG h id).color = color then some id else none
    | none => none)).dedup

/-- The set `adj_enemies` of `Board::place_stone`. -/
def adjEnemyIds (h : Heap) (b : Board) (color : Color) (pos : Pos) : List GroupId :=
  ((validNeighbors pos).filterMap (fun p =>
    match b.grid p with
    | some id => if (lookupG h id).color = color then none else some id
    | none => none)).dedup

/-- `newLiberties` of `Board::place_stone`: the empty valid neighbours. -/
def newLibertiesAt (b : Board) (pos : Pos) : Finset Pos :=
  ((validNeighbors pos).filter (fun p => b.grid p = none)).toFinset

/-- `Board::removeDeadGroup`: drop the group from the active set and clear
its stones' grid cells. -/
def removeDeadGroup (b : Board) (id : GroupId) (g : GroupData) : Board :=
  ⟨fun p => if p ∈ g.stones then none else b.grid p,
   b.activeGroups.filter (fun j => j ≠ id)⟩

/-- The enemy-update loop of `Board::place_stone`: for each adjacent enemy,
`enemy->liberties -= pos; if (enemy->isDead()) removeDeadGroup(enemy);`. -/
def updateEnemies (pos : Pos) : List GroupId → Heap × Board → Heap × Board
  | [], st => st
  | id :: rest, (h, b) =>
    let g := lookupG h id
    let g2 : GroupData := ⟨g.color, g.stones, g.liberties.erase pos⟩
    let h2 := updateG h id g2
    if groupIsDead g2 then
      updateEnemies pos rest (h2, removeDeadGroup b id g2)
    else
      updateEnemies pos rest (h2, b)

/-- `Board::place_stone(Color color, Pos pos)`, line for line.

Line 198 reads `if (!is_pos_valid(pos) || !grid[pos.row][pos.col]) return
false;` — for a `shared_ptr` grid cell, `!cell` is true exactly when the cell
is EMPTY, so the call proceeds only at occupied cells.

The friend merge `*new_group += *e` calls `_Group::operator+=`, which
unconditionally ends in `throw std::invalid_argument("Cannot merge groups of
different colors")` even on the same-colour path, so any adjacent friend
group raises that exception; it is modelled as `Except.error`.

Returns `(success-flag, heap, board)` on the non-throwing paths. -/
def placeStone (h : Heap) (b : Board) (color : Color) (pos : Pos) :
    Except String (Bool × Heap × Board) :=
  if ¬ (isPosValid pos = true) ∨ b.grid pos = none then
    Except.ok (false, h, b)
  else
    let friends := adjFriendIds h b color pos
    let enemies := adjEnemyIds h b color pos
    let newGroup : GroupData := ⟨color, {pos}, newLibertiesAt b pos⟩
    if friends ≠ [] then
      Except.error "Cannot merge groups of different colors"
    else if groupIsDead newGroup then
      Except.ok (false, h, b)
    else
      let alloc := allocG h newGroup
      let h1 := alloc.1
      let newId := alloc.2
      let ag1 := (b.activeGroups.filter (fun j => j ∉ friends)) ++ [newId]
      let grid1 : Pos → Option GroupId :=
        fun p => if p ∈ newGroup.stones then some newId else b.grid p
      let st := updateEnemies pos enemies (h1, ⟨grid1, ag1⟩)
      Except.ok (true, st.1, st.2)

/-- `Board::clear()`: reset every grid cell; `activeGroups` is untouched. -/
def clearBoard (b : Board) : Board :=
  ⟨fun _ => none, b.activeGroups⟩

/-- `Board::copy()`: `res.activeGroups = activeGroups;` copies the set of
shared pointers (the ids) unchanged, then for each active group allocates a
fresh deep copy and writes it into `res`'s grid at the copy's stones. -/
def copyBoard (h : Heap) (b : Board) : Heap × Board :=
  b.activeGroups.foldl
    (fun st id =>
      let g := lookupG st.1 id
      let alloc := allocG st.1 g
      (alloc.1,
       ⟨fun p => if p ∈ g.stones then some alloc.2 else st.2.grid p,
        st.2.activeGroups⟩))
    (h, ⟨fun _ => none, b.activeGroups⟩)

/-- Ids reachable through a board's grid (for sharing statements). -/
def gridIds (b : Board) : List GroupId :=
  ((List.range 9).flatMap (fun r =>
    (List.range 9).map (fun c => (⟨(r : Int), (c : Int)⟩ : Pos)))).filterMap b.grid

/-- `*elements.begin()` of a non-empty `std::set<Pos>`: the least element in
the `(row, col)` lexicographic order (`Positions::getAny`, `.first()`). -/
def firstPos (s : Finset Pos) : Pos :=
  (s.min).untop' default

/-- `Bot::isInAtari` (transcribed from the source): some active group of
colour `t` has exactly one liberty. -/
def isInAtari (h : Heap) (b : Board) (t : Color) : Bool :=
  b.activeGroups.any (fun id =>
    decide ((lookupG h id).color = t) && decide ((lookupG h id).liberties.card = 1))

/-- Outcome of the neighbour loop of `Bot::is_point_an_eye`:
`board[p]->color` dereferences the grid cell; an empty valid neighbour is a
null-pointer dereference (`crash`). -/
inductive EyeStep where
  | crash
  | retFalse
  | go
deriving DecidableEq, Repr

/-- The neighbour loop of `Bot::is_point_an_eye`: for each valid neighbour,
`board[p]->color != color` returns false; a null cell crashes. -/
def eyeNeighborLoop (h : Heap) (b : Board) (c : Color) : List Pos → EyeStep
  | [] => EyeStep.go
  | p :: rest =>
    if isPosValid p then
      match b.grid p with
      | none => EyeStep.crash
      | some id =>
        if (lookupG h id).color ≠ c then EyeStep.retFalse
        else eyeNeighborLoop h b c rest
    else eyeNeighborLoop h b c rest

/-- The corner loop of `Bot::is_point_an_eye`, accumulating
`(num_corners, side_corners, is_center_eye)`; dereferencing an empty valid
corner is a null-pointer dereference (`none`). -/
def eyeCornerLoop (h : Heap) (b : Board) (c : Color) :
    List Pos → Nat → Nat → Bool → Option (Nat × Nat × Bool)
  | [], nc, sc, ce => some (nc, sc, ce)
  | p :: rest, nc, sc, ce =>
    if isPosValid p then
      match b.grid p with
      | none => none
      | some id =>
        if (lookupG h id).color = c then eyeCornerLoop h b c rest (nc + 1) sc ce
        else eyeCornerLoop h b c rest nc sc ce
    else eyeCornerLoop h b c rest nc (sc + 1) false

/-- `Bot::is_point_an_eye`.  `none` models the undefined behaviour of
dereferencing an absent (null) group reference. -/
def isPointAnEye (h : Heap) (b : Board) (pos : Pos) (c : Color) : Option Bool :=
  if (b.grid pos).isSome then some false
  else
    match eyeNeighborLoop h b c (neighbors pos) with
    | EyeStep.crash => none
    | EyeStep.retFalse => some false
    | EyeStep.go =>
      match eyeCornerLoop h b c (corners pos) 0 0 true with
      | none => none
      | some (nc, sc, ce) =>
        some (if ce then decide (3 ≤ nc) else decide (sc + nc = 4))

/-- The stones of the group obtained by merging a stone at `pos` with the
adjacent same-colour groups (spec §4.1 step 2). -/
def mergedStonesAt (h : Heap) (b : Board) (color : Color) (pos : Pos) : Finset Pos :=
  (adjFriendIds h b color pos).foldl (fun s id => s ∪ (lookupG h id).stones) {pos}

/-- The liberties of that merged group before captures are resolved
(spec §4.1 step 2: union of liberties, minus the combined stones). -/
def mergedLibertiesAt (h : Heap) (b : Board) (color : Color) (pos : Pos) : Finset Pos :=
  ((adjFriendIds h b color pos).foldl (fun s id => s ∪ (lookupG h id).liberties)
    (newLibertiesAt b pos)) \ mergedStonesAt h b color pos

/-- The adjacent enemy groups the placement would capture: those whose
liberties, minus `pos`, are empty (spec §4.1 step 5). -/
def capturedEnemyIds (h : Heap) (b : Board) (color : Color) (pos : Pos) : List GroupId :=
  (adjEnemyIds h b color pos).filter (fun id =>
    ((lookupG h id).liberties.erase pos).card = 0)

/-- Modelled from the spec: `is_move_self_capture` is called by the bot
(`find_anti_capture_moves`, minimax) but defined nowhere in the source.  Per
§4.2 "playing there would itself be a self-capture (the point, once played,
yields a still-captured group)" and the glossary's suicide rule, the merged
group at the point is still captured exactly when it has no liberties and the
placement captures no adjacent enemy group. -/
def isMoveSelfCapture (h : Heap) (b : Board) (pos : Pos) (color : Color) : Bool :=
  decide ((mergedLibertiesAt h b color pos).card = 0) &&
  decide (capturedEnemyIds h b color pos = [])

/-- Modelled from the spec: `is_valid_move` is called by the bot but defined
nowhere in the source.  Per §4.2: "point empty and placing there would not
immediately fail the suicide check", the suicide check being §4.1 step 3 on
the merged group's liberty count. -/
def isValidMove (h : Heap) (b : Board) (pos : Pos) (color : Color) : Bool :=
  isPosValid pos && decide (b.grid pos = none) &&
  decide ((mergedLibertiesAt h b color pos).card ≠ 0)

/-- The loop body of the bot's `find_anti_capture_moves` over `e.strings`,
transcribed from the source: for each own-colour group with one liberty,
take its first liberty `curr`; if `is_move_self_capture`, return failure when
`can_resign` (else the point is NOT collected — the `else` of the source
attaches to the self-capture test); otherwise collect `curr`; then, only when
`can_resign`, simulate the move on a board copy and return failure if the
mover is still in atari.  `Except.ok none` is the JS `return false`. -/
def facmLoop (canResign : Bool) (h : Heap) (b : Board) (t : Color) :
    List GroupId → Finset Pos → Except String (Option (Finset Pos))
  | [], r => Except.ok (some r)
  | id :: rest, r =>
    let g := lookupG h id
    if g.color = t ∧ g.liberties.card = 1 then
      let c := firstPos g.liberties
      if isMoveSelfCapture h b c t then
        if canResign then Except.ok none
        else facmLoop canResign h b t rest r
      else
        let r2 := insert c r
        if canResign then
          let cp := copyBoard h b
          match placeStone cp.1 cp.2 t c with
          | Except.error s => Except.error s
          | Except.ok (_, h2, o2) =>
            if isInAtari h2 o2 t then Except.ok none
            else facmLoop canResign h b t rest r2
        else facmLoop canResign h b t rest r2
    else facmLoop canResign h b t rest r

/-- The bot's `find_anti_capture_moves(e, t)`. -/
def findAntiCaptureMoves (canResign : Bool) (h : Heap) (b : Board) (t : Color) :
    Except String (Option (Finset Pos)) :=
  facmLoop canResign h b t b.activeGroups ∅

/-- The values `find_ladder_move` can produce: `null`, `true`, `false`, or a
point (`1 != r || l` yields `true` at inner depths and the point `l` at the
top level). -/
inductive LadderResult where
  | nullR
  | trueR
  | falseR
  | pointR (p : Pos)
deriving DecidableEq, Repr

/-- JavaScript truthiness of a `LadderResult` (`null` and `false` are falsy,
`true` and a point object are truthy). -/
def ladderTruthy : LadderResult → Bool
  | LadderResult.nullR => false
  | LadderResult.falseR => false
  | _ => true

/-- Outcome of the candidate loops inside `find_ladder_move`: a first
liberty `l` was found, none was, or the mid-loop `return false` fired. -/
inductive LoopOut where
  | found (p : Pos)
  | notFound
  | earlyFalse
deriving DecidableEq, Repr

/-- The inner loop of `find_ladder_move` over the two liberties of an enemy
group, transcribed from the source.  `rec` is the recursive call at depth
`r + 1` (heap and board of the simulated position vary; everything else is
fixed at the call site).  For each candidate liberty `hh` that is a valid
move: copy the board, place the chaser's stone, and unless the chaser is in
atari find the opponent's escape liberty `n` (the last 1-liberty enemy group
wins, as in the source's overwriting loop); no escape is the source's
`return false`; otherwise simulate the escape and recurse. -/
def ladderLibs (rec : Heap → Board → Except String LadderResult)
    (h : Heap) (e : Board) (t : Color) : List Pos → Except String LoopOut
  | [] => Except.ok LoopOut.notFound
  | hh :: rest =>
    if isValidMove h e hh t then
      let cp := copyBoard h e
      match placeStone cp.1 cp.2 t hh with
      | Except.error s => Except.error s
      | Except.ok (_, h2, o2) =>
        if isInAtari h2 o2 t then ladderLibs rec h e t rest
        else
          let n : Option Pos := o2.activeGroups.foldl (fun acc id =>
            let g := lookupG h2 id
            if g.color ≠ t ∧ g.liberties.card = 1 then some (firstPos g.liberties)
            else acc) none
          match n with
          | none => Except.ok LoopOut.earlyFalse
          | some np =>
            match placeStone h2 o2 (oppColor t) np with
            | Except.error s => Except.error s
            | Except.ok (_, h3, o3) =>
              match rec h3 o3 with
              | Except.error s => Except.error s
              | Except.ok res =>
                if ladderTruthy res then Except.ok (LoopOut.found hh)
                else ladderLibs rec h e t rest
    else ladderLibs rec h e t rest

/-- The outer loop of `find_ladder_move` over `e.strings`: for each enemy
group with exactly two liberties, run the liberty loop over its liberty set
in `std::set` (sorted) order; stop at the first found point, propagate the
mid-loop `return false`. -/
def ladderGroups (rec : Heap → Board → Except String LadderResult)
    (h : Heap) (e : Board) (t : Color) : List GroupId → Except String LoopOut
  | [] => Except.ok LoopOut.notFound
  | id :: rest =>
    let g := lookupG h id
    if g.color ≠ t ∧ g.liberties.card = 2 then
      match ladderLibs rec h e t (g.liberties.sort (· ≤ ·)) with
      | Except.error s => Except.error s
      | Except.ok (LoopOut.found p) => Except.ok (LoopOut.found p)
      | Except.ok LoopOut.earlyFalse => Except.ok LoopOut.earlyFalse
      | Except.ok LoopOut.notFound => ladderGroups rec h e t rest
    else ladderGroups rec h e t rest

/-- The bot's `find_ladder_move(e, t, r, i)`, transcribed from the source,
with `ld`/`ald` the profile's `ladder_depth`/`anti_ladder_depth` and an
explicit `fuel` counter that pays for one level of recursion per unit, so
that the recursion depth of the source function is observable: the source
recurses only as `find_ladder_move(o, t, r + 1, i)`.

Entry: if the depth `r` exceeds the configured bound, return `null`.  If
some enemy group is already at one liberty, return `true`.  Otherwise run
the candidate loops; `l == null` yields `null`, the mid-loop `return false`
yields `false`, and a found `l` yields `true` at depth `r ≠ 1` or the point
itself at the top level. -/
def findLadderFuel (ld ald : Nat) (anti : Bool) :
    Nat → Heap → Board → Color → Nat → Except String LadderResult
  | 0, _, _, _, _ => Except.ok LadderResult.nullR
  | fuel + 1, h, e, t, r =>
    if r > (if anti then ald else ld) then Except.ok LadderResult.nullR
    else if e.activeGroups.any (fun id =>
        decide ((lookupG h id).color ≠ t) && decide ((lookupG h id).liberties.card = 1)) then
      Except.ok LadderResult.trueR
    else
      match ladderGroups (fun h2 b2 => findLadderFuel ld ald anti fuel h2 b2 t (r + 1))
          h e t e.activeGroups with
      | Except.error s => Except.error s
      | Except.ok (LoopOut.found p) =>
        Except.ok (if r ≠ 1 then LadderResult.trueR else LadderResult.pointR p)
      | Except.ok LoopOut.earlyFalse => Except.ok LadderResult.falseR
      | Except.ok LoopOut.notFound => Except.ok LadderResult.nullR

/-! ## Concrete inputs -/

/-- A single white group on `(0,0)` with its two corner liberties. -/
def groupW00 : GroupData := ⟨Color.WHITE, {⟨0, 0⟩}, {⟨0, 1⟩, ⟨1, 0⟩}⟩

def oneGroupHeap : Heap := ⟨1, fun i => if i = 0 then some groupW00 else none⟩

def oneGroupBoard : Board :=
  ⟨fun p => if p = ⟨0, 0⟩ then some 0 else none, [0]⟩

/-- Two adjacent black one-stone groups, as `place_stone` records them. -/
def friendHeap : Heap :=
  ⟨2, fun i =>
    if i = 0 then some ⟨Color.BLACK, {⟨0, 0⟩}, {⟨0, 1⟩, ⟨1, 0⟩}⟩
    else if i = 1 then some ⟨Color.BLACK, {⟨0, 1⟩}, {⟨0, 2⟩, ⟨1, 1⟩}⟩
    else none⟩

def friendBoard : Board :=
  ⟨fun p => if p = ⟨0, 0⟩ then some 0 else if p = ⟨0, 1⟩ then some 1 else none,
   [0, 1]⟩

/-- A legal black capture at `(0,0)`: the white stone `(0,1)` is in atari
with `(0,0)` as its sole liberty, the white stone `(1,0)` and the black
stones `(0,2)`, `(1,1)` wall the point in, so black at `(0,0)` captures
group 0 and is legal Go. -/
def captHeap : Heap :=
  ⟨4, fun i =>
    if i = 0 then some ⟨Color.WHITE, {⟨0, 1⟩}, {⟨0, 0⟩}⟩
    else if i = 1 then some ⟨Color.BLACK, {⟨0, 2⟩}, {⟨0, 3⟩, ⟨1, 2⟩}⟩
    else if i = 2 then some ⟨Color.BLACK, {⟨1, 1⟩}, {⟨2, 1⟩, ⟨1, 2⟩}⟩
    else if i = 3 then some ⟨Color.WHITE, {⟨1, 0⟩}, {⟨0, 0⟩, ⟨2, 0⟩}⟩
    else none⟩

def captBoard : Board :=
  ⟨fun p =>
    if p = ⟨0, 1⟩ then some 0
    else if p = ⟨0, 2⟩ then some 1
    else if p = ⟨1, 1⟩ then some 2
    else if p = ⟨1, 0⟩ then some 3
    else none,
   [0, 1, 2, 3]⟩

/-- Three white one-stone groups walling in the corner point `(0,0)`, which
is itself occupied (by group 0), so that black at `(0,0)` passes the
occupancy gate, has no adjacent friends, and merges to zero liberties. -/
def suicideHeap : Heap :=
  ⟨3, fun i =>
    if i = 0 then some ⟨Color.WHITE, {⟨0, 0⟩}, ∅⟩
    else if i = 1 then some ⟨Color.WHITE, {⟨0, 1⟩}, {⟨0, 2⟩, ⟨1, 1⟩}⟩
    else if i = 2 then some ⟨Color.WHITE, {⟨1, 0⟩}, {⟨1, 1⟩, ⟨2, 0⟩}⟩
    else none⟩

def suicideBoard : Board :=
  ⟨fun p =>
    if p = ⟨0, 0⟩ then some 0
    else if p = ⟨0, 1⟩ then some 1
    else if p = ⟨1, 0⟩ then some 2
    else none,
   [0, 1, 2]⟩

/-- A black group in atari whose sole liberty `(0,1)` is a self-capture:
black `(0,0)` has only `(0,1)`, and the white wall `(1,0)`, `(1,1)`, `(0,2)`
leaves the merged black group at `(0,1)` without liberties or captures. -/
def selfcapHeap : Heap :=
  ⟨3, fun i =>
    if i = 0 then some ⟨Color.BLACK, {⟨0, 0⟩}, {⟨0, 1⟩}⟩
    else if i = 1 then some ⟨Color.WHITE, {⟨1, 0⟩, ⟨1, 1⟩}, {⟨2, 0⟩, ⟨2, 1⟩, ⟨1, 2⟩, ⟨0, 1⟩}⟩
    else if i = 2 then some ⟨Color.WHITE, {⟨0, 2⟩}, {⟨0, 1⟩, ⟨0, 3⟩, ⟨1, 2⟩}⟩
    else none⟩

def selfcapBoard : Board :=
  ⟨fun p =>
    if p = ⟨0, 0⟩ then some 0
    else if p = ⟨1, 0⟩ then some 1
    else if p = ⟨1, 1⟩ then some 1
    else if p = ⟨0, 2⟩ then some 2
    else none,
   [0, 1, 2]⟩

/-! ## Claims -/

/-- C1.  The claim says `place_stone` proceeds exactly at on-grid empty
points and fails at occupied ones.  The code's occupancy gate is inverted
(`!grid[pos.row][pos.col]` is true at EMPTY cells): on the empty board the
on-grid empty point `(4,4)` is rejected with `false`. -/
theorem place_stone_rejects_empty_point :
    emptyBoard.grid ⟨4, 4⟩ = none ∧ isPosValid ⟨4, 4⟩ = true ∧
    placeStone emptyHeap emptyBoard Color.BLACK ⟨4, 4⟩ =
      Except.ok (false, emptyHeap, emptyBoard) :=
  ⟨rfl, rfl, rfl⟩

/-- C2.  The claim says `place_stone` never throws, in particular not when
merging with adjacent same-colour groups.  `_Group::operator+=` throws
`std::invalid_argument` unconditionally, so placing black at the occupied
point `(0,1)` next to the black group at `(0,0)` raises the exception. -/
theorem place_stone_throws_on_friend_merge :
    (lookupG friendHeap 0).color = Color.BLACK ∧
    friendBoard.grid ⟨0, 0⟩ = some 0 ∧
    placeStone friendHeap friendBoard Color.BLACK ⟨0, 1⟩ =
      Except.error "Cannot merge groups of different colors" :=
  ⟨rfl, rfl, rfl⟩

/-- C4.  The claim says a move that captures enemy stones is never rejected.
Black at the empty point `(0,0)` would capture the white group 0 (in atari
with sole liberty `(0,0)`), yet `place_stone` returns `false` and changes
nothing: the inverted occupancy gate rejects every placement on an empty
point, and past the gate the suicide check would still run before enemy
captures are resolved. -/
theorem place_stone_rejects_capturing_move :
    (lookupG captHeap 0).color = Color.WHITE ∧
    (lookupG captHeap 0).liberties = {(⟨0, 0⟩ : Pos)} ∧
    (0 : GroupId) ∈ captBoard.activeGroups ∧
    captBoard.grid ⟨0, 0⟩ = none ∧ isPosValid ⟨0, 0⟩ = true ∧
    placeStone captHeap captBoard Color.BLACK ⟨0, 0⟩ =
      Except.ok (false, captHeap, captBoard) :=
  ⟨rfl, by decide, by decide, rfl, rfl, rfl⟩

/-- C5.  The claim says `is_point_an_eye` is total and returns false when an
on-grid 4-neighbour is empty.  On the empty board at `(4,4)` the first
neighbour `(4,3)` is valid and empty, and `board[p]->color` dereferences the
null group reference (modelled `none`). -/
theorem is_point_an_eye_crashes_on_empty_neighbor :
    emptyBoard.grid ⟨4, 3⟩ = none ∧ isPosValid ⟨4, 3⟩ = true ∧
    isPointAnEye emptyHeap emptyBoard ⟨4, 4⟩ Color.BLACK = none :=
  ⟨rfl, rfl, rfl⟩

/-- C7.  The claim says active groups' stone sets stay pairwise disjoint
after every successful placement.  Because the occupancy gate is inverted, a
call succeeds only at an occupied point: black at `(0,0)` over the white
group 0 succeeds and leaves two distinct active groups whose stone sets both
contain `(0,0)`. -/
theorem place_stone_breaks_stone_disjointness :
    ∃ h2 b2,
      placeStone oneGroupHeap oneGroupBoard Color.BLACK ⟨0, 0⟩ =
        Except.ok (true, h2, b2) ∧
      b2.activeGroups = [0, 1] ∧
      (lookupG h2 0).stones = {(⟨0, 0⟩ : Pos)} ∧
      (lookupG h2 1).stones = {(⟨0, 0⟩ : Pos)} ∧
      (0 : GroupId) ≠ 1 :=
  ⟨_, _, rfl, by decide, by decide, by decide, by decide⟩

/-- C3.  The claim says every group reachable from `Board::copy`'s result is
a distinct deep copy.  `res.activeGroups = activeGroups;` copies the set of
shared pointers: the copy's active set still holds the original's group id 0
(while its grid got the fresh deep copy, id 1), so updating the group object
0 — reachable from the copy's active set — changes what the original board's
grid cell `(0,0)` dereferences to. -/
theorem board_copy_shares_active_groups :
    (copyBoard oneGroupHeap oneGroupBoard).2.activeGroups =
      oneGroupBoard.activeGroups ∧
    oneGroupBoard.activeGroups = [0] ∧
    oneGroupBoard.grid ⟨0, 0⟩ = some 0 ∧
    (copyBoard oneGroupHeap oneGroupBoard).2.grid ⟨0, 0⟩ = some 1 ∧
    lookupG (updateG (copyBoard oneGroupHeap oneGroupBoard).1 0
        ⟨Color.WHITE, {⟨0, 0⟩}, ∅⟩) 0 =
      ⟨Color.WHITE, {⟨0, 0⟩}, ∅⟩ :=
  ⟨rfl, rfl, rfl, by decide, rfl⟩

/-- C10.  `Board::clear()` resets every grid cell and does not touch
`activeGroups`. -/
theorem clear_resets_grid_keeps_active_groups (b : Board)
    (hne : b.activeGroups ≠ []) :
    (∀ p, (clearBoard b).grid p = none) ∧
    (clearBoard b).activeGroups = b.activeGroups :=
  ⟨fun _ => rfl, rfl⟩

/-- Witness for C10 on the one-group board. -/
theorem clear_resets_grid_keeps_active_groups_witness :
    oneGroupBoard.activeGroups ≠ [] ∧
    ((∀ p, (clearBoard oneGroupBoard).grid p = none) ∧
     (clearBoard oneGroupBoard).activeGroups = oneGroupBoard.activeGroups) :=
  ⟨by decide, clear_resets_grid_keeps_active_groups oneGroupBoard (by decide)⟩

/-- C6.  When `place_stone` reaches and fails the suicide check — the
occupancy gate passed, no adjacent friend group exists (any friend would
raise the merge exception first), and the merged group's liberty count is
zero — it returns `false` and leaves heap and board exactly as they were.
No enemy is captured on this path: the function aborts before the enemy
update loop. -/
theorem place_stone_failed_suicide_leaves_board_unchanged
    (h : Heap) (b : Board) (c : Color) (pos : Pos)
    (h1 : isPosValid pos = true) (h2 : b.grid pos ≠ none)
    (h3 : adjFriendIds h b c pos = [])
    (h4 : (newLibertiesAt b pos).card = 0) :
    placeStone h b c pos = Except.ok (false, h, b) := by
  simp [placeStone, groupIsDead, h1, h2, h3, h4]

/-- Witness for C6: black at the occupied, white-walled corner `(0,0)`. -/
theorem place_stone_failed_suicide_witness :
    isPosValid (⟨0, 0⟩ : Pos) = true ∧
    suicideBoard.grid ⟨0, 0⟩ ≠ none ∧
    adjFriendIds suicideHeap suicideBoard Color.BLACK ⟨0, 0⟩ = [] ∧
    (newLibertiesAt suicideBoard ⟨0, 0⟩).card = 0 ∧
    placeStone suicideHeap suicideBoard Color.BLACK ⟨0, 0⟩ =
      Except.ok (false, suicideHeap, suicideBoard) :=
  ⟨by decide, by decide, by decide, by decide,
   place_stone_failed_suicide_leaves_board_unchanged suicideHeap suicideBoard
     Color.BLACK ⟨0, 0⟩ (by decide) (by decide) (by decide) (by decide)⟩

/-- With `can_resign` false, the anti-capture loop never fails and collects
exactly the sole liberties of own-colour atari groups that are not
self-captures (self-capture points are skipped: the source's `else` branch
attaches to the self-capture test). -/
theorem facmLoop_no_resign_spec (h : Heap) (b : Board) (t : Color) :
    ∀ (L : List GroupId) (r : Finset Pos),
      ∃ S, facmLoop false h b t L r = Except.ok (some S) ∧
        ∀ p : Pos, p ∈ S ↔ (p ∈ r ∨ ∃ id, id ∈ L ∧
          (lookupG h id).color = t ∧ (lookupG h id).liberties.card = 1 ∧
          firstPos (lookupG h id).liberties = p ∧
          isMoveSelfCapture h b p t = false) := by
  intro L
  induction L with
  | nil =>
    intro r
    exact ⟨r, rfl, fun p => by simp⟩
  | cons a L ih =>
    intro r
    by_cases hcond : (lookupG h a).color = t ∧ (lookupG h a).liberties.card = 1
    · by_cases hsc :
        isMoveSelfCapture h b (firstPos (lookupG h a).liberties) t = true
      · obtain ⟨S, hS, hmem⟩ := ih r
        refine ⟨S, ?_, ?_⟩
        · simp only [facmLoop]
          rw [if_pos hcond, if_pos hsc]
          simpa using hS
        · intro p
          rw [hmem p]
          constructor
          · rintro (hp | ⟨id, hid, hrest⟩)
            · exact Or.inl hp
            · exact Or.inr ⟨id, List.mem_cons_of_mem _ hid, hrest⟩
          · rintro (hp | ⟨id, hid, hc1, hc2, hc3, hc4⟩)
            · exact Or.inl hp
            · rcases List.mem_cons.mp hid with he | he
              · subst he
                rw [hc3] at hsc
                rw [hsc] at hc4
                cases hc4
              · exact Or.inr ⟨id, he, hc1, hc2, hc3, hc4⟩
      · obtain ⟨S, hS, hmem⟩ :=
          ih (insert (firstPos (lookupG h a).liberties) r)
        refine ⟨S, ?_, ?_⟩
        · simp only [facmLoop]
          rw [if_pos hcond, if_neg hsc]
          simpa using hS
        · intro p
          rw [hmem p]
          constructor
          · rintro (hp | ⟨id, hid, hrest⟩)
            · rcases Finset.mem_insert.mp hp with he | hr
              · exact Or.inr ⟨a, List.mem_cons_self a L, hcond.1, hcond.2,
                  he.symm, by simpa [he] using Bool.not_eq_true _ ▸ hsc⟩
              · exact Or.inl hr
            · exact Or.inr ⟨id, List.mem_cons_of_mem _ hid, hrest⟩
          · rintro (hp | ⟨id, hid, hc1, hc2, hc3, hc4⟩)
            · exact Or.inl (Finset.mem_insert_of_mem hp)
            · rcases List.mem_cons.mp hid with he | he
              · subst he
                exact Or.inl (hc3 ▸ Finset.mem_insert_self _ _)
              · exact Or.inr ⟨id, he, hc1, hc2, hc3, hc4⟩
    · obtain ⟨S, hS, hmem⟩ := ih r
      refine ⟨S, ?_, ?_⟩
      · simp only [facmLoop]
        rw [if_neg hcond]
        exact hS
      · intro p
        rw [hmem p]
        constructor
        · rintro (hp | ⟨id, hid, hrest⟩)
          · exact Or.inl hp
          · exact Or.inr ⟨id, List.mem_cons_of_mem _ hid, hrest⟩
        · rintro (hp | ⟨id, hid, hc1, hc2, hc3, hc4⟩)
          · exact Or.inl hp
          · rcases List.mem_cons.mp hid with he | he
            · subst he
              exact absurd ⟨hc1, hc2⟩ hcond
            · exact Or.inr ⟨id, he, hc1, hc2, hc3, hc4⟩

/-- C8 (amended).  When the strength profile does not permit resignation,
`find_anti_capture_moves` never signals failure and returns exactly the sole
liberty points of own-colour atari groups whose occupation is NOT a
self-capture; self-capture points are skipped, never collected. -/
theorem facm_no_resign_collects_non_selfcapture (h : Heap) (b : Board) (t : Color) :
    ∃ S, findAntiCaptureMoves false h b t = Except.ok (some S) ∧
      ∀ p : Pos, p ∈ S ↔ ∃ id, id ∈ b.activeGroups ∧
        (lookupG h id).color = t ∧ (lookupG h id).liberties.card = 1 ∧
        firstPos (lookupG h id).liberties = p ∧
        isMoveSelfCapture h b p t = false := by
  obtain ⟨S, hS, hmem⟩ := facmLoop_no_resign_spec h b t b.activeGroups ∅
  refine ⟨S, hS, fun p => ?_⟩
  rw [hmem p]
  simp

/-- C8 counterexample.  The claim says that without resignation the sole
liberty of every own-colour atari group is collected "regardless of the
simulated outcome".  On `selfcapBoard` the black group 0 is in atari with
sole liberty `(0,1)`, that point is a self-capture, and the collected set is
empty: the point is not collected. -/
theorem facm_skips_selfcapture_counterexample :
    (lookupG selfcapHeap 0).color = Color.BLACK ∧
    (lookupG selfcapHeap 0).liberties = {(⟨0, 1⟩ : Pos)} ∧
    (0 : GroupId) ∈ selfcapBoard.activeGroups ∧
    isMoveSelfCapture selfcapHeap selfcapBoard ⟨0, 1⟩ Color.BLACK = true ∧
    findAntiCaptureMoves false selfcapHeap selfcapBoard Color.BLACK =
      Except.ok (some ∅) :=
  ⟨rfl, by decide, by decide, by decide, rfl⟩

/-- Entering the ladder reader past the configured depth bound returns the
no-escape result `null` immediately, for any fuel. -/
theorem findLadderFuel_depth_exceeded (ld ald : Nat) (anti : Bool) (f : Nat)
    (h : Heap) (e : Board) (t : Color) (r : Nat)
    (hr : r > (if anti then ald else ld)) :
    findLadderFuel ld ald anti f h e t r = Except.ok LadderResult.nullR := by
  cases f with
  | zero => rfl
  | succ n => simp [findLadderFuel, hr]

/-- Fuel irrelevance: the ladder reader's recursion never descends more than
`bound + 1 - r` levels below depth `r`, so any two fuel amounts of at least
`bound + 2 - r` compute the same result. -/
theorem findLadderFuel_agree (ld ald : Nat) (anti : Bool) :
    ∀ f1 f2 r : Nat, ∀ h : Heap, ∀ e : Board, ∀ t : Color,
      (if anti then ald else ld) + 2 - r ≤ f1 →
      (if anti then ald else ld) + 2 - r ≤ f2 →
      findLadderFuel ld ald anti f1 h e t r =
        findLadderFuel ld ald anti f2 h e t r := by
  intro f1
  induction f1 with
  | zero =>
    intro f2 r h e t h1 h2
    have hr : r > (if anti then ald else ld) := by omega
    rw [findLadderFuel_depth_exceeded ld ald anti 0 h e t r hr,
      findLadderFuel_depth_exceeded ld ald anti f2 h e t r hr]
  | succ a ih =>
    intro f2 r h e t h1 h2
    by_cases hr : r > (if anti then ald else ld)
    · rw [findLadderFuel_depth_exceeded ld ald anti (a + 1) h e t r hr,
        findLadderFuel_depth_exceeded ld ald anti f2 h e t r hr]
    · cases f2 with
      | zero => omega
      | succ bfl =>
        have hrec :
            (fun h2x b2x => findLadderFuel ld ald anti a h2x b2x t (r + 1)) =
            (fun h2x b2x => findLadderFuel ld ald anti bfl h2x b2x t (r + 1)) := by
          funext hx bx
          exact ih bfl (r + 1) hx bx t (by omega) (by omega)
        simp only [findLadderFuel]
        rw [hrec]

/-- C9.  The ladder reader is depth-bounded and terminates: with the depth
check `anti ? anti_ladder_depth : ladder_depth` at entry, a call past the
bound returns the no-escape result `null` with no further recursion, and any
fuel of at least `bound + 2 - r` levels (one per recursion step of the
source) already suffices — deeper fuel never changes the result. -/
theorem find_ladder_move_terminates_within_depth (ld ald : Nat) (anti : Bool)
    (h : Heap) (e : Board) (t : Color) (r f1 f2 : Nat)
    (hf1 : (if anti then ald else ld) + 2 - r ≤ f1)
    (hf2 : (if anti then ald else ld) + 2 - r ≤ f2) :
    findLadderFuel ld ald anti f1 h e t r = findLadderFuel ld ald anti f2 h e t r ∧
    (r > (if anti then ald else ld) →
      findLadderFuel ld ald anti f1 h e t r = Except.ok LadderResult.nullR) :=
  ⟨findLadderFuel_agree ld ald anti f1 f2 r h e t hf1 hf2,
   fun hr => findLadderFuel_depth_exceeded ld ald anti f1 h e t r hr⟩

/-- Witness for C9 at the MEDIUM profile depths. -/
theorem find_ladder_move_terminates_within_depth_witness :
    ((if false then 6 else 6) + 2 - 7 ≤ 10 ∧ (if false then 6 else 6) + 2 - 7 ≤ 20) ∧
    (findLadderFuel 6 6 false 10 emptyHeap emptyBoard Color.BLACK 7 =
       findLadderFuel 6 6 false 20 emptyHeap emptyBoard Color.BLACK 7 ∧
     (7 > (if false then 6 else 6) →
       findLadderFuel 6 6 false 10 emptyHeap emptyBoard Color.BLACK 7 =
         Except.ok LadderResult.nullR)) :=
  ⟨⟨by decide, by decide⟩,
   find_ladder_move_terminates_within_depth 6 6 false emptyHeap emptyBoard
     Color.BLACK 7 10 20 (by decide) (by decide)⟩
